import Mathlib

/-!
Shallow embedding of the task manager core (`task_manager/core.py`): the `Task`
record, the in-memory store of `TaskManager`, and its operations `create_task`,
`start_task`, `stop_task`, `get_task_status`, `list_tasks`, `get_tmux_output`
and `cleanup_old_tasks`.  External effects (tmux commands, sleeps, file writes,
notifier calls) are recorded in an effect trace; results of external commands
(tmux return codes, the wall clock) are supplied by explicit environment
records, one per operation.
-/

namespace TaskMgr

/-- Embeds the `Task.status` string field of core.py; the five values that the
code ever stores are the literals "pending", "running", "completed", "failed"
and "killed". -/
inductive Status where
  | pending
  | running
  | completed
  | failed
  | killed
deriving Repr, DecidableEq

/-- Embeds the membership test `status in ["completed", "failed", "killed"]`
used by `cleanup_old_tasks` and `_send_task_completion_email`. -/
def isTerminal : Status → Bool
  | Status.completed => true
  | Status.failed => true
  | Status.killed => true
  | _ => false

/-- Embeds the zero-padded decimal rendering `f"{n:05d}"` used for task ids. -/
def formatId (n : Nat) : String :=
  let s := toString n
  String.mk (List.replicate (5 - s.length) '0') ++ s

/-- Embeds the session name `f"task_{task_id}"` built in `create_task`. -/
def sessionName (n : Nat) : String :=
  "task_" ++ formatId n

/-- Embeds the `Task` dataclass of core.py.  Task ids are zero-padded decimal
strings `f"{n:05d}"` of the integer counter; we carry the integer `n` (the
string is `formatId n`, and `int(id)` recovers `n`).  Timestamps
(`datetime.now()` values) are modelled as integer seconds. -/
structure Task where
  id : Nat
  name : String
  command : String
  tmux_session : String
  status : Status := Status.pending
  priority : Int := 0
  max_retries : Nat := 0
  retry_count : Nat := 0
  created_time : Int
  start_time : Option Int := none
  end_time : Option Int := none
  pid : Option Int := none
  exit_code : Option Int := none
  error_message : Option String := none
deriving Repr, DecidableEq

/-- Path of the task-set file `self.tasks_file = data_dir / "tasks.json"`. -/
def tasksFile : String := "tasks.json"

/-- External effects issued by the operations.  Each tmux constructor stands
for one `subprocess.run` of the corresponding shell command; `logCreate n` /
`logUnlink n` stand for creating / unlinking `logs_dir / (formatId n ++ ".log")`
(log paths are in bijection with ids); `logRead n` stands for reading that
file (no operation of core.py ever issues it); `fsWrite p` is an in-place
`open(p, "w")` rewrite of file `p`; `fsWriteTemp` and `fsRename` stand for the
write-temporary-then-rename pattern (never issued by core.py); `notify` is one
call of the delegation in `_send_task_completion_email` to the email notifier with
payload `(id, status, duration, start_time, end_time, command)`. -/
inductive Eff where
  | tmuxNewSession (session cmd : String)
  | tmuxListPanes (session : String)
  | tmuxSendInterrupt (session : String)
  | tmuxHasSession (session : String)
  | tmuxKillSession (session : String)
  | tmuxCapturePane (session : String)
  | pipePane (session : String) (tid : Nat)
  | sleepSec (n : Nat)
  | fsWrite (path : String)
  | fsWriteTemp (path : String)
  | fsRename (src dst : String)
  | logCreate (tid : Nat)
  | logUnlink (tid : Nat)
  | logRead (tid : Nat)
  | notify (tid : Nat) (st : Status) (duration : Option Int)
      (startT endT : Option Int) (cmd : String)
deriving Repr, DecidableEq

/-- Embeds `TaskManager._save_tasks` (core.py line 90): it serialises every
task and writes the whole set with a single in-place `open(self.tasks_file,
"w")` followed by `json.dump`; no temporary file and no rename is involved. -/
def saveTasksEffs : List Eff := [Eff.fsWrite tasksFile]

/-- Embeds the in-memory state of a `TaskManager`: the dict `self.tasks`
(insertion-ordered, keyed by id) and the counter `self.next_task_id`. -/
structure TMState where
  tasks : List Task
  next_task_id : Nat
deriving Repr, DecidableEq

/-- State of a manager over a fresh data directory: no tasks,
`next_task_id = 1` (from `_get_next_task_id` on an empty store). -/
def initState : TMState where
  tasks := []
  next_task_id := 1

/-- Embeds the dict lookup `self.tasks[task_id]` guarded by
`task_id in self.tasks`. -/
def findTask (s : TMState) (tid : Nat) : Option Task :=
  s.tasks.find? (fun t => t.id == tid)

/-- Embeds in-place mutation of the record held at key `t.id` followed by the
dict keeping its insertion order: the entry whose key is `t.id` now holds `t`,
every other entry is unchanged. -/
def updateTask (s : TMState) (t : Task) : TMState :=
  { s with tasks := s.tasks.map (fun u => if u.id == t.id then t else u) }

/-- Embeds `TaskManager.create_task` (core.py line 115): build a pending
`Task` with the next id, insert it, bump the counter, save.  Returns the new
id, the new state and the effect trace. -/
def create_task (s : TMState) (name cmd : String) (priority : Int)
    (max_retries : Nat) (now : Int) : Nat × TMState × List Eff :=
  let tid := s.next_task_id
  let task : Task :=
    { id := tid
      name := name
      command := cmd
      tmux_session := sessionName tid
      priority := priority
      max_retries := max_retries
      created_time := now }
  (tid,
   { tasks := s.tasks ++ [task], next_task_id := tid + 1 },
   saveTasksEffs)

/-- Environment of one `start_task` call: return code of
`tmux new-session` (`session_created`), its stderr, return code of
`tmux list-panes` (`panes_ok`), the parsed pane pid (`none` models the
swallowed `int()` parse failure), and the wall clock. -/
structure StartEnv where
  session_created : Bool
  create_stderr : String
  panes_ok : Bool
  pane_pid : Option Int
  now : Int
deriving Repr, DecidableEq

/-- Embeds the mutation of the failure branch of `start_task` (core.py line
149): status becomes failed and `error_message` records the stderr of
`tmux new-session`; neither `start_time` nor `end_time` is touched. -/
def failedTask (task : Task) (stderr : String) : Task :=
  { task with
     status := Status.failed
     error_message := some stderr }

/-- Embeds the mutation of the success branch of `start_task` (core.py line
155): status becomes running, `start_time = now`, and the pid is assigned
only when `tmux list-panes` succeeded and its output parsed as an integer. -/
def startedTask (task : Task) (env : StartEnv) : Task :=
  let t1 := { task with
               status := Status.running
               start_time := some env.now }
  if env.panes_ok then
    match env.pane_pid with
    | some p => { t1 with pid := some p }
    | none => t1
  else t1

/-- Embeds `TaskManager.start_task` (core.py line 135).  Unknown id or
non-pending status: reject with no effect.  If `tmux new-session` fails:
`failedTask` mutation, save, return failure.  Otherwise: `startedTask`
mutation, log file created and pipe-pane capture dispatched by
`_start_task_logging`, save, return success. -/
def start_task (s : TMState) (tid : Nat) (env : StartEnv) :
    Bool × TMState × List Eff :=
  match findTask s tid with
  | none => (false, s, [])
  | some task =>
    if task.status ≠ Status.pending then (false, s, [])
    else if env.session_created = false then
      (false, updateTask s (failedTask task env.create_stderr),
       Eff.tmuxNewSession task.tmux_session task.command :: saveTasksEffs)
    else
      (true, updateTask s (startedTask task env),
       Eff.tmuxNewSession task.tmux_session task.command ::
       Eff.tmuxListPanes task.tmux_session ::
       Eff.logCreate tid ::
       Eff.pipePane task.tmux_session tid :: saveTasksEffs)

/-- Embeds `TaskManager._send_task_completion_email` (core.py line 387): when
the task is terminal, compute the duration (`end - start` when both are set,
`now - start` when only `start_time` is, otherwise the "N/A" placeholder,
modelled as `none`) and invoke the notifier once with
`(id, status, duration, start_time, end_time, command)`. -/
def notifyEffs (t : Task) (now : Int) : List Eff :=
  if isTerminal t.status then
    let duration : Option Int :=
      match t.start_time, t.end_time with
      | some a, some b => some (b - a)
      | some a, none => some (now - a)
      | none, _ => none
    [Eff.notify t.id t.status duration t.start_time t.end_time t.command]
  else []

/-- Environment of one `stop_task` call: whether `tmux has-session` still
succeeds after the interrupt and the one-second grace period, and the wall
clock. -/
structure StopEnv where
  alive_after_interrupt : Bool
  now : Int
deriving Repr, DecidableEq

/-- Embeds `TaskManager.stop_task` (core.py line 179).  Unknown id or status
outside {running, pending}: reject with no effect.  Forced: kill the session
outright and the status becomes killed.  Non-forced: send Ctrl+C, sleep one
second, re-check `has-session`, kill only if the session is still alive, and
the status becomes completed either way.  Both paths set `end_time = now`,
save, notify, and return success. -/
def stoppedTask (task : Task) (force : Bool) (now : Int) : Task :=
  { task with
     status := if force then Status.killed else Status.completed
     end_time := some now }

/-- Tmux effects of the stop paths: forced stop is one unconditional
`kill-session`; non-forced stop is `send-keys C-c`, a one second sleep, a
`has-session` probe, and a `kill-session` only when the probe still finds the
session alive. -/
def stopSessionEffs (task : Task) (force : Bool) (env : StopEnv) : List Eff :=
  if force then [Eff.tmuxKillSession task.tmux_session]
  else
    Eff.tmuxSendInterrupt task.tmux_session ::
    Eff.sleepSec 1 ::
    Eff.tmuxHasSession task.tmux_session ::
    (if env.alive_after_interrupt then
      [Eff.tmuxKillSession task.tmux_session]
    else [])

def stop_task (s : TMState) (tid : Nat) (force : Bool) (env : StopEnv) :
    Bool × TMState × List Eff :=
  match findTask s tid with
  | none => (false, s, [])
  | some task =>
    if task.status ≠ Status.running ∧ task.status ≠ Status.pending then
      (false, s, [])
    else
      let t := stoppedTask task force env.now
      (true, updateTask s t,
       stopSessionEffs task force env ++ saveTasksEffs ++ notifyEffs t env.now)

/-- Environment of one `get_task_status` call: whether `tmux has-session`
succeeds, and the wall clock. -/
structure QueryEnv where
  session_alive : Bool
  now : Int
deriving Repr, DecidableEq

/-- Embeds `TaskManager.get_task_status` (core.py line 214).  Unknown id:
`none`.  A running task whose session vanished is reconciled: status becomes
completed, `end_time = now`, save, notify.  Any other task is returned as is
with no state change. -/
def reconciledTask (task : Task) (now : Int) : Task :=
  { task with
     status := Status.completed
     end_time := some now }

def get_task_status (s : TMState) (tid : Nat) (env : QueryEnv) :
    Option Task × TMState × List Eff :=
  match findTask s tid with
  | none => (none, s, [])
  | some task =>
    if task.status = Status.running then
      if env.session_alive then
        (some task, s, [Eff.tmuxHasSession task.tmux_session])
      else
        let t := reconciledTask task env.now
        (some t, updateTask s t,
         Eff.tmuxHasSession task.tmux_session ::
           saveTasksEffs ++ notifyEffs t env.now)
    else (some task, s, [])

/-- Embeds the sort key of `list_tasks`, a pair of the test that the status
differs from running and of the negated integer id: rank 0 for running
tasks, rank 1 for all others. -/
def statusRank (t : Task) : Nat :=
  if t.status = Status.running then 0 else 1

/-- Order induced by the sort key of `list_tasks`: smaller rank first
(running before everything), and inside a rank larger numeric id first
(newest first, since `-int(id)` ascending is `id` descending). -/
def taskLE (a b : Task) : Prop :=
  statusRank a < statusRank b ∨ (statusRank a = statusRank b ∧ b.id ≤ a.id)

instance : DecidableRel taskLE := fun a b => by
  unfold taskLE
  infer_instance

/-- Embeds the status filter of `list_tasks`: keep every task when no filter
is given, otherwise keep the tasks of exactly the requested status. -/
def matchesFilter (status_filter : Option Status) (t : Task) : Bool :=
  match status_filter with
  | none => true
  | some st => t.status == st

/-- Embeds `TaskManager.list_tasks` (core.py line 238): filter the tasks in
store order, then sort them by the key
described by `statusRank` and the id (the stable Python `list.sort`; the keys of
distinct live tasks are distinct because ids are unique, so any sort agrees
with it). -/
def list_tasks (s : TMState) (status_filter : Option Status) : List Task :=
  List.insertionSort taskLE (s.tasks.filter (matchesFilter status_filter))

/-- Environment of one `get_tmux_output` call: return code, stdout and stderr
of `tmux capture-pane`. -/
structure OutputEnv where
  capture_ok : Bool
  capture_stdout : String
  capture_stderr : String
deriving Repr, DecidableEq

/-- Embeds the tail selection of `get_tmux_output` (join of the last `lines`
elements of the newline split) applied
by `get_tmux_output` when `lines > 0`. -/
def lastLines (output : String) (lines : Int) : String :=
  if lines > 0 then
    let ls := output.splitOn "\n"
    String.intercalate "\n" (ls.drop (ls.length - lines.toNat))
  else output

/-- Embeds `TaskManager.get_tmux_output` (core.py line 250).  Unknown id: a
not-found message.  Otherwise run `tmux capture-pane`; on failure return the
error message built from its stderr (the durable log file is never consulted),
on success return the last `lines` lines of the captured snapshot. -/
def get_tmux_output (s : TMState) (tid : Nat) (lines : Int) (env : OutputEnv) :
    String × List Eff :=
  match findTask s tid with
  | none => ("Task " ++ formatId tid ++ " not found", [])
  | some task =>
    if env.capture_ok = false then
      ("Failed to get output: " ++ env.capture_stderr,
       [Eff.tmuxCapturePane task.tmux_session])
    else
      (lastLines env.capture_stdout lines,
       [Eff.tmuxCapturePane task.tmux_session])

/-- Embeds the cleanup candidate test of `cleanup_old_tasks` (core.py line
371): terminal status, `end_time` set, and
`(now - end_time).total_seconds() / 3600 > max_age_hours`; over integer
seconds the strict rational comparison is exactly
`now - e > max_age_hours * 3600`. -/
def removeCond (now max_age_hours : Int) (t : Task) : Bool :=
  isTerminal t.status &&
    match t.end_time with
    | some e => decide (now - e > max_age_hours * 3600)
    | none => false

/-- Embeds `del self.tasks[task_id]`: drop the entry keyed `tid`. -/
def eraseTask (tasks : List Task) (tid : Nat) : List Task :=
  tasks.filter (fun t => t.id != tid)

/-- Embeds `TaskManager.cleanup_old_tasks` (core.py line 365): collect the ids
of every cleanup candidate, delete them from the store one by one, unlink each
log file of each candidate when it exists (`logExists` tells which do), and save
once at the end, only when something was removed. -/
def cleanup_old_tasks (s : TMState) (max_age_hours now : Int)
    (logExists : Nat → Bool) : TMState × List Eff :=
  let tasksToRemove :=
    (s.tasks.filter (removeCond now max_age_hours)).map (fun t => t.id)
  let tasks1 := tasksToRemove.foldl eraseTask s.tasks
  let unlinkEffs :=
    (tasksToRemove.filter logExists).map (fun i => Eff.logUnlink i)
  ({ s with tasks := tasks1 },
   unlinkEffs ++ (if tasksToRemove.isEmpty then [] else saveTasksEffs))

/-- One externally triggered operation of the manager, with arbitrary
environment.  The ghost list `ev` accumulates the ids of tasks that have ever
entered the running status: a successful `start_task` call is the only thing
that extends it. -/
inductive Step : TMState → List Nat → TMState → List Nat → Prop where
  | create (s : TMState) (ev : List Nat) (name cmd : String) (priority : Int)
      (max_retries : Nat) (now : Int) :
      Step s ev (create_task s name cmd priority max_retries now).2.1 ev
  | start (s : TMState) (ev : List Nat) (tid : Nat) (env : StartEnv) :
      Step s ev (start_task s tid env).2.1
        (if (start_task s tid env).1 then tid :: ev else ev)
  | stop (s : TMState) (ev : List Nat) (tid : Nat) (force : Bool)
      (env : StopEnv) :
      Step s ev (stop_task s tid force env).2.1 ev
  | query (s : TMState) (ev : List Nat) (tid : Nat) (env : QueryEnv) :
      Step s ev (get_task_status s tid env).2.1 ev
  | cleanup (s : TMState) (ev : List Nat) (age now : Int)
      (logExists : Nat → Bool) :
      Step s ev (cleanup_old_tasks s age now logExists).1 ev

/-- States reachable from a fresh manager by any sequence of operations,
together with the ghost record of ids that were ever running. -/
inductive Reach : TMState → List Nat → Prop where
  | init : Reach initState []
  | step {s ev s2 ev2} : Reach s ev → Step s ev s2 ev2 → Reach s2 ev2

/-- Inductive invariant of the reachable states: ids are below the counter,
every ghost id is below the counter, `end_time` is present exactly on
completed and killed tasks, and `start_time` is present exactly on tasks that
have ever been running. -/
def Inv (s : TMState) (ev : List Nat) : Prop :=
  (∀ t ∈ s.tasks, t.id < s.next_task_id) ∧
  (∀ i ∈ ev, i < s.next_task_id) ∧
  (∀ t ∈ s.tasks,
    (t.end_time.isSome ↔ (t.status = Status.completed ∨ t.status = Status.killed))) ∧
  (∀ t ∈ s.tasks, (t.start_time.isSome ↔ t.id ∈ ev))

theorem findTask_mem {s : TMState} {tid : Nat} {t : Task}
    (h : findTask s tid = some t) : t ∈ s.tasks :=
  List.mem_of_find?_eq_some h

theorem findTask_id {s : TMState} {tid : Nat} {t : Task}
    (h : findTask s tid = some t) : t.id = tid := by
  have h2 := List.find?_some h
  simpa using h2

theorem mem_updateTask {s : TMState} {u t : Task}
    (h : t ∈ (updateTask s u).tasks) :
    t = u ∨ (t ∈ s.tasks ∧ t.id ≠ u.id) := by
  unfold updateTask at h
  simp only [List.mem_map] at h
  obtain ⟨w, hw, hEq⟩ := h
  by_cases hid : w.id = u.id
  · left
    rw [if_pos (by simpa using hid)] at hEq
    exact hEq.symm
  · right
    rw [if_neg (by simpa using hid)] at hEq
    exact ⟨hEq ▸ hw, hEq ▸ hid⟩

theorem mem_eraseTask {tasks : List Task} {tid : Nat} {t : Task}
    (h : t ∈ eraseTask tasks tid) : t ∈ tasks :=
  (List.mem_filter.mp h).1

theorem mem_foldl_eraseTask {l : List Nat} {tasks : List Task} {t : Task}
    (h : t ∈ l.foldl eraseTask tasks) : t ∈ tasks := by
  induction l generalizing tasks with
  | nil => simpa using h
  | cons i l ih =>
    have h2 := @ih (eraseTask tasks i) h
    exact mem_eraseTask h2

theorem create_task_eq (s : TMState) (name cmd : String) (priority : Int)
    (max_retries : Nat) (now : Int) :
    create_task s name cmd priority max_retries now =
      (s.next_task_id,
       { tasks := s.tasks ++
           [{ id := s.next_task_id
              name := name
              command := cmd
              tmux_session := sessionName s.next_task_id
              priority := priority
              max_retries := max_retries
              created_time := now }]
         next_task_id := s.next_task_id + 1 },
       saveTasksEffs) := rfl

theorem start_task_none {s : TMState} {tid : Nat} (env : StartEnv)
    (hfind : findTask s tid = none) :
    start_task s tid env = (false, s, []) := by
  simp [start_task, hfind]

theorem start_task_not_pending {s : TMState} {tid : Nat} {task : Task}
    (env : StartEnv) (hfind : findTask s tid = some task)
    (hst : task.status ≠ Status.pending) :
    start_task s tid env = (false, s, []) := by
  simp [start_task, hfind, hst]

theorem start_task_create_failed {s : TMState} {tid : Nat} {task : Task}
    {env : StartEnv} (hfind : findTask s tid = some task)
    (hst : task.status = Status.pending)
    (hc : env.session_created = false) :
    start_task s tid env =
      (false, updateTask s (failedTask task env.create_stderr),
       Eff.tmuxNewSession task.tmux_session task.command :: saveTasksEffs) := by
  simp [start_task, hfind, hst, hc]

theorem start_task_ok {s : TMState} {tid : Nat} {task : Task}
    {env : StartEnv} (hfind : findTask s tid = some task)
    (hst : task.status = Status.pending)
    (hc : env.session_created = true) :
    start_task s tid env =
      (true, updateTask s (startedTask task env),
       Eff.tmuxNewSession task.tmux_session task.command ::
       Eff.tmuxListPanes task.tmux_session ::
       Eff.logCreate tid ::
       Eff.pipePane task.tmux_session tid :: saveTasksEffs) := by
  simp [start_task, hfind, hst, hc]

theorem stop_task_none {s : TMState} {tid : Nat} (force : Bool)
    (env : StopEnv) (hfind : findTask s tid = none) :
    stop_task s tid force env = (false, s, []) := by
  simp [stop_task, hfind]

theorem stop_task_terminal {s : TMState} {tid : Nat} {task : Task}
    (force : Bool) (env : StopEnv) (hfind : findTask s tid = some task)
    (h1 : task.status ≠ Status.running) (h2 : task.status ≠ Status.pending) :
    stop_task s tid force env = (false, s, []) := by
  simp [stop_task, hfind, h1, h2]

theorem stop_task_ok {s : TMState} {tid : Nat} {task : Task}
    (force : Bool) (env : StopEnv) (hfind : findTask s tid = some task)
    (h : task.status = Status.running ∨ task.status = Status.pending) :
    stop_task s tid force env =
      (true, updateTask s (stoppedTask task force env.now),
       stopSessionEffs task force env ++ saveTasksEffs ++
         notifyEffs (stoppedTask task force env.now) env.now) := by
  rcases h with h | h <;> simp [stop_task, hfind, h]

theorem get_task_status_none {s : TMState} {tid : Nat} (env : QueryEnv)
    (hfind : findTask s tid = none) :
    get_task_status s tid env = (none, s, []) := by
  simp [get_task_status, hfind]

theorem get_task_status_not_running {s : TMState} {tid : Nat} {task : Task}
    (env : QueryEnv) (hfind : findTask s tid = some task)
    (hst : task.status ≠ Status.running) :
    get_task_status s tid env = (some task, s, []) := by
  simp [get_task_status, hfind, hst]

theorem get_task_status_alive {s : TMState} {tid : Nat} {task : Task}
    {env : QueryEnv} (hfind : findTask s tid = some task)
    (hst : task.status = Status.running)
    (ha : env.session_alive = true) :
    get_task_status s tid env =
      (some task, s, [Eff.tmuxHasSession task.tmux_session]) := by
  simp [get_task_status, hfind, hst, ha]

theorem get_task_status_reconcile {s : TMState} {tid : Nat} {task : Task}
    {env : QueryEnv} (hfind : findTask s tid = some task)
    (hst : task.status = Status.running)
    (ha : env.session_alive = false) :
    get_task_status s tid env =
      (some (reconciledTask task env.now),
       updateTask s (reconciledTask task env.now),
       Eff.tmuxHasSession task.tmux_session ::
         saveTasksEffs ++ notifyEffs (reconciledTask task env.now) env.now) := by
  simp [get_task_status, hfind, hst, ha]

theorem startedTask_id (task : Task) (env : StartEnv) :
    (startedTask task env).id = task.id := by
  unfold startedTask
  cases env.panes_ok
  · rfl
  · cases env.pane_pid <;> rfl

theorem startedTask_status (task : Task) (env : StartEnv) :
    (startedTask task env).status = Status.running := by
  unfold startedTask
  cases env.panes_ok
  · rfl
  · cases env.pane_pid <;> rfl

theorem startedTask_start (task : Task) (env : StartEnv) :
    (startedTask task env).start_time = some env.now := by
  unfold startedTask
  cases env.panes_ok
  · rfl
  · cases env.pane_pid <;> rfl

theorem startedTask_end (task : Task) (env : StartEnv) :
    (startedTask task env).end_time = task.end_time := by
  unfold startedTask
  cases env.panes_ok
  · rfl
  · cases env.pane_pid <;> rfl

theorem inv_create {s : TMState} {ev : List Nat} (h : Inv s ev)
    (name cmd : String) (priority : Int) (max_retries : Nat) (now : Int) :
    Inv (create_task s name cmd priority max_retries now).2.1 ev := by
  simp only [Inv] at h ⊢
  obtain ⟨hId, hEv, hEnd, hStart⟩ := h
  rw [create_task_eq]
  refine ⟨?_, ?_, ?_, ?_⟩
  · intro t ht
    simp only [List.mem_append, List.mem_singleton] at ht
    rcases ht with ht | ht
    · exact Nat.lt_succ_of_lt (hId t ht)
    · subst ht
      exact Nat.lt_succ_self _
  · intro i hi
    exact Nat.lt_succ_of_lt (hEv i hi)
  · intro t ht
    simp only [List.mem_append, List.mem_singleton] at ht
    rcases ht with ht | ht
    · exact hEnd t ht
    · subst ht
      simp
  · intro t ht
    simp only [List.mem_append, List.mem_singleton] at ht
    rcases ht with ht | ht
    · exact hStart t ht
    · subst ht
      simp only [Option.isSome_none, Bool.false_eq_true, false_iff]
      intro hmem
      exact absurd (hEv _ hmem) (lt_irrefl _)

theorem inv_start {s : TMState} {ev : List Nat} (h : Inv s ev)
    (tid : Nat) (env : StartEnv) :
    Inv (start_task s tid env).2.1
      (if (start_task s tid env).1 then tid :: ev else ev) := by
  simp only [Inv] at h ⊢
  obtain ⟨hId, hEv, hEnd, hStart⟩ := h
  cases hfind : findTask s tid with
  | none =>
    rw [start_task_none env hfind]
    simpa using ⟨hId, hEv, hEnd, hStart⟩
  | some task =>
    have hmem := findTask_mem hfind
    have hid := findTask_id hfind
    by_cases hst : task.status = Status.pending
    · by_cases hc : env.session_created = true
      · rw [start_task_ok hfind hst hc]
        simp only [if_true]
        refine ⟨?_, ?_, ?_, ?_⟩
        · intro t ht
          rcases mem_updateTask ht with ht | ⟨ht, _⟩
          · subst ht
            rw [startedTask_id]
            exact hId task hmem
          · exact hId t ht
        · intro i hi
          rcases List.mem_cons.mp hi with hi | hi
          · subst hi
            rw [← hid]
            exact hId task hmem
          · exact hEv i hi
        · intro t ht
          rcases mem_updateTask ht with ht | ⟨ht, _⟩
          · subst ht
            rw [startedTask_end, startedTask_status]
            have h1 := hEnd task hmem
            rw [hst] at h1
            simpa using h1
          · exact hEnd t ht
        · intro t ht
          rcases mem_updateTask ht with ht | ⟨ht, hne⟩
          · subst ht
            rw [startedTask_start, startedTask_id, hid]
            simp
          · rw [startedTask_id, hid] at hne
            rw [hStart t ht]
            simp [List.mem_cons, hne]
      · rw [start_task_create_failed hfind hst (by simpa using hc)]
        simp only [Bool.false_eq_true, if_false]
        refine ⟨?_, hEv, ?_, ?_⟩
        · intro t ht
          rcases mem_updateTask ht with ht | ⟨ht, _⟩
          · subst ht
            exact hId task hmem
          · exact hId t ht
        · intro t ht
          rcases mem_updateTask ht with ht | ⟨ht, _⟩
          · subst ht
            have h1 := hEnd task hmem
            rw [hst] at h1
            simpa [failedTask] using h1
          · exact hEnd t ht
        · intro t ht
          rcases mem_updateTask ht with ht | ⟨ht, _⟩
          · subst ht
            exact hStart task hmem
          · exact hStart t ht
    · rw [start_task_not_pending env hfind hst]
      simpa using ⟨hId, hEv, hEnd, hStart⟩

theorem inv_stop {s : TMState} {ev : List Nat} (h : Inv s ev)
    (tid : Nat) (force : Bool) (env : StopEnv) :
    Inv (stop_task s tid force env).2.1 ev := by
  simp only [Inv] at h ⊢
  obtain ⟨hId, hEv, hEnd, hStart⟩ := h
  cases hfind : findTask s tid with
  | none =>
    rw [stop_task_none force env hfind]
    exact ⟨hId, hEv, hEnd, hStart⟩
  | some task =>
    have hmem := findTask_mem hfind
    by_cases hok : task.status = Status.running ∨ task.status = Status.pending
    · rw [stop_task_ok force env hfind hok]
      refine ⟨?_, hEv, ?_, ?_⟩
      · intro t ht
        rcases mem_updateTask ht with ht | ⟨ht, _⟩
        · subst ht
          exact hId task hmem
        · exact hId t ht
      · intro t ht
        rcases mem_updateTask ht with ht | ⟨ht, _⟩
        · subst ht
          cases force <;> simp [stoppedTask]
        · exact hEnd t ht
      · intro t ht
        rcases mem_updateTask ht with ht | ⟨ht, _⟩
        · subst ht
          exact hStart task hmem
        · exact hStart t ht
    · push_neg at hok
      rw [stop_task_terminal force env hfind hok.1 hok.2]
      exact ⟨hId, hEv, hEnd, hStart⟩

theorem inv_query {s : TMState} {ev : List Nat} (h : Inv s ev)
    (tid : Nat) (env : QueryEnv) :
    Inv (get_task_status s tid env).2.1 ev := by
  simp only [Inv] at h ⊢
  obtain ⟨hId, hEv, hEnd, hStart⟩ := h
  cases hfind : findTask s tid with
  | none =>
    rw [get_task_status_none env hfind]
    exact ⟨hId, hEv, hEnd, hStart⟩
  | some task =>
    have hmem := findTask_mem hfind
    by_cases hst : task.status = Status.running
    · by_cases ha : env.session_alive = true
      · rw [get_task_status_alive hfind hst ha]
        exact ⟨hId, hEv, hEnd, hStart⟩
      · rw [get_task_status_reconcile hfind hst (by simpa using ha)]
        refine ⟨?_, hEv, ?_, ?_⟩
        · intro t ht
          rcases mem_updateTask ht with ht | ⟨ht, _⟩
          · subst ht
            exact hId task hmem
          · exact hId t ht
        · intro t ht
          rcases mem_updateTask ht with ht | ⟨ht, _⟩
          · subst ht
            simp [reconciledTask]
          · exact hEnd t ht
        · intro t ht
          rcases mem_updateTask ht with ht | ⟨ht, _⟩
          · subst ht
            exact hStart task hmem
          · exact hStart t ht
    · rw [get_task_status_not_running env hfind hst]
      exact ⟨hId, hEv, hEnd, hStart⟩

theorem inv_cleanup {s : TMState} {ev : List Nat} (h : Inv s ev)
    (age now : Int) (logExists : Nat → Bool) :
    Inv (cleanup_old_tasks s age now logExists).1 ev := by
  simp only [Inv] at h ⊢
  obtain ⟨hId, hEv, hEnd, hStart⟩ := h
  refine ⟨?_, hEv, ?_, ?_⟩
  · intro t ht
    exact hId t (mem_foldl_eraseTask ht)
  · intro t ht
    exact hEnd t (mem_foldl_eraseTask ht)
  · intro t ht
    exact hStart t (mem_foldl_eraseTask ht)

theorem reach_inv {s : TMState} {ev : List Nat} (h : Reach s ev) :
    Inv s ev := by
  induction h with
  | init =>
    simp [Inv, initState]
  | step _ hs ih =>
    cases hs with
    | create name cmd priority max_retries now =>
      exact inv_create ih name cmd priority max_retries now
    | start tid env => exact inv_start ih tid env
    | stop tid force env => exact inv_stop ih tid force env
    | query tid env => exact inv_query ih tid env
    | cleanup age now logExists => exact inv_cleanup ih age now logExists

instance : IsTrans Task taskLE := by
  constructor
  intro a b c hab hbc
  unfold taskLE at *
  rcases hab with hab | ⟨hab1, hab2⟩
  · rcases hbc with hbc | ⟨hbc1, hbc2⟩
    · exact Or.inl (lt_trans hab hbc)
    · exact Or.inl (hbc1 ▸ hab)
  · rcases hbc with hbc | ⟨hbc1, hbc2⟩
    · exact Or.inl (hab1 ▸ hbc)
    · exact Or.inr ⟨hab1.trans hbc1, le_trans hbc2 hab2⟩

instance : IsTotal Task taskLE := by
  constructor
  intro a b
  unfold taskLE
  rcases Nat.lt_trichotomy (statusRank a) (statusRank b) with h | h | h
  · exact Or.inl (Or.inl h)
  · rcases Nat.le_total b.id a.id with h2 | h2
    · exact Or.inl (Or.inr ⟨h, h2⟩)
    · exact Or.inr (Or.inr ⟨h.symm, h2⟩)
  · exact Or.inr (Or.inl h)

/-- Ordering contract of the spec for `list_tasks`: in the returned sequence,
whenever `b` comes somewhere after `a`, a running `b` forces `a` to be running
too (running tasks come first), and inside one partition (both running or
both not) the numeric id of `a` is at least that of `b` (newest first). -/
def listedBefore (a b : Task) : Prop :=
  (b.status = Status.running → a.status = Status.running) ∧
  ((a.status = Status.running ↔ b.status = Status.running) → b.id ≤ a.id)

theorem taskLE_listedBefore {a b : Task} (h : taskLE a b) : listedBefore a b := by
  unfold taskLE at h
  unfold listedBefore statusRank at *
  constructor
  · intro hb
    rcases h with h | ⟨h1, _⟩
    · rw [if_pos hb] at h
      by_contra ha
      rw [if_neg ha] at h
      omega
    · by_contra ha
      rw [if_pos hb, if_neg ha] at h1
      omega
  · intro hiff
    rcases h with h | ⟨_, h2⟩
    · by_cases hb : b.status = Status.running
      · rw [if_pos (hiff.mpr hb), if_pos hb] at h
        omega
      · rw [if_neg hb, if_neg (fun ha => hb (hiff.mp ha))] at h
        omega
    · exact h2

/-- Concrete task used by the examples: id `n`, status `st`, everything else
as `create_task` leaves a fresh record. -/
def exTask (n : Nat) (st : Status) : Task :=
  { id := n
    name := "t"
    command := "c"
    tmux_session := sessionName n
    status := st
    created_time := 0 }

/-- The store of the ordering example in the spec: ids 00001 (completed),
00002 (running), 00003 (pending). -/
def exampleThree : TMState :=
  { tasks := [exTask 1 Status.completed, exTask 2 Status.running,
              exTask 3 Status.pending]
    next_task_id := 4 }

/-- Tests whether an effect trace ever uses the write-to-temporary-then-rename
pattern that the spec requires of an atomic save. -/
def mentionsTempOrRename (effs : List Eff) : Bool :=
  effs.any (fun e =>
    match e with
    | Eff.fsWriteTemp _ => true
    | Eff.fsRename _ _ => true
    | _ => false)

/-- Number of notifier invocations in an effect trace. -/
def notifyCount (effs : List Eff) : Nat :=
  (effs.filter (fun e =>
    match e with
    | Eff.notify _ _ _ _ _ _ => true
    | _ => false)).length

/-- Start environment in which `tmux new-session` fails with some stderr. -/
def envStartFail : StartEnv :=
  { session_created := false
    create_stderr := "boom"
    panes_ok := false
    pane_pid := none
    now := 5 }

/-- Start environment in which everything succeeds. -/
def envStartOk : StartEnv :=
  { session_created := true
    create_stderr := ""
    panes_ok := true
    pane_pid := some 42
    now := 5 }

/-- State after creating one task on a fresh manager. -/
def sCreated : TMState := (create_task initState "build" "sleep 1" 0 0 0).2.1

/-- State after the session creation of that task failed: its only task is
failed. -/
def sFailed : TMState := (start_task sCreated 1 envStartFail).2.1

/-- State after that task started successfully: its only task is running. -/
def sRunning : TMState := (start_task sCreated 1 envStartOk).2.1

theorem mentionsTempOrRename_append (a b : List Eff) :
    mentionsTempOrRename (a ++ b) =
      (mentionsTempOrRename a || mentionsTempOrRename b) := by
  unfold mentionsTempOrRename
  exact List.any_append

theorem mentionsTempOrRename_notifyEffs (t : Task) (now : Int) :
    mentionsTempOrRename (notifyEffs t now) = false := by
  unfold notifyEffs
  split <;> rfl

theorem mentionsTempOrRename_stopSessionEffs (t : Task) (force : Bool)
    (env : StopEnv) :
    mentionsTempOrRename (stopSessionEffs t force env) = false := by
  unfold stopSessionEffs
  cases force
  · cases env.alive_after_interrupt <;> rfl
  · rfl

theorem notifyCount_append (a b : List Eff) :
    notifyCount (a ++ b) = notifyCount a + notifyCount b := by
  unfold notifyCount
  rw [List.filter_append, List.length_append]

theorem notifyCount_notifyEffs (t : Task) (now : Int) :
    notifyCount (notifyEffs t now) = if isTerminal t.status then 1 else 0 := by
  unfold notifyEffs
  split <;> simp_all [notifyCount]

theorem notifyCount_stopSessionEffs (t : Task) (force : Bool) (env : StopEnv) :
    notifyCount (stopSessionEffs t force env) = 0 := by
  unfold stopSessionEffs
  cases force
  · cases env.alive_after_interrupt <;> rfl
  · rfl

/-- C4 (confirmed).  For every stored task set and every optional status
filter, `list_tasks` returns exactly the matching tasks (a permutation of the
filtered store) in an order where every later task is `listedBefore`-dominated
by every earlier one: running tasks come before all others and, inside each of
the two partitions, numeric ids are descending.  On the example store —
ids 00001 (completed), 00002 (running), 00003 (pending) — the listing is
[00002, 00003, 00001]. -/
theorem C4_list_tasks_order :
    ∀ (s : TMState) (status_filter : Option Status),
    (list_tasks s status_filter).Perm
        (s.tasks.filter (matchesFilter status_filter)) ∧
    List.Pairwise listedBefore (list_tasks s status_filter) ∧
    (list_tasks exampleThree none).map (fun t => formatId t.id) =
      ["00002", "00003", "00001"] := by
  intro s status_filter
  refine ⟨List.perm_insertionSort taskLE _, ?_, by decide⟩
  exact List.Pairwise.imp taskLE_listedBefore
    (List.sorted_insertionSort taskLE _)

/-- C1 counterexample.  `create_task` on a fresh manager persists the store,
yet its effect trace writes the tasks file in place and contains neither a
temporary-file write nor a rename: the save is not performed via the
write-to-temporary-then-rename pattern the claim asserts. -/
theorem C1_counterexample :
    Eff.fsWrite tasksFile ∈ (create_task initState "build" "sleep 1" 0 0 0).2.2 ∧
    mentionsTempOrRename (create_task initState "build" "sleep 1" 0 0 0).2.2 =
      false := by
  decide

/-- C1 amended.  Every persisting operation of the task store writes the
task-set file with a single direct in-place rewrite (`open(path, "w")` +
`json.dump`): the traces of `create_task`, `start_task`, `stop_task`,
`get_task_status` and `cleanup_old_tasks` never contain a temporary-location
write or a rename, and each path that persists emits the in-place write
`fsWrite tasksFile`; a crash in the middle of that write can therefore leave
the store half-written. -/
theorem C1_saves_write_in_place :
    ∀ (s : TMState) (name cmd : String) (priority : Int) (max_retries : Nat)
      (now age : Int) (tid : Nat) (senv : StartEnv) (force : Bool)
      (stenv : StopEnv) (qenv : QueryEnv) (logExists : Nat → Bool),
    mentionsTempOrRename (create_task s name cmd priority max_retries now).2.2
        = false ∧
    mentionsTempOrRename (start_task s tid senv).2.2 = false ∧
    mentionsTempOrRename (stop_task s tid force stenv).2.2 = false ∧
    mentionsTempOrRename (get_task_status s tid qenv).2.2 = false ∧
    mentionsTempOrRename (cleanup_old_tasks s age now logExists).2 = false ∧
    Eff.fsWrite tasksFile ∈ (create_task s name cmd priority max_retries now).2.2 ∧
    (∀ t, findTask s tid = some t → t.status = Status.pending →
      Eff.fsWrite tasksFile ∈ (start_task s tid senv).2.2) ∧
    ((stop_task s tid force stenv).1 = true →
      Eff.fsWrite tasksFile ∈ (stop_task s tid force stenv).2.2) ∧
    (s.tasks.filter (removeCond now age) ≠ [] →
      Eff.fsWrite tasksFile ∈ (cleanup_old_tasks s age now logExists).2) := by
  intro s name cmd priority max_retries now age tid senv force stenv qenv
    logExists
  refine ⟨by simp [create_task_eq, mentionsTempOrRename, saveTasksEffs],
    ?_, ?_, ?_, ?_, by simp [create_task_eq, saveTasksEffs], ?_, ?_, ?_⟩
  · cases hfind : findTask s tid with
    | none => rw [start_task_none senv hfind]; rfl
    | some task =>
      by_cases hst : task.status = Status.pending
      · by_cases hc : senv.session_created = true
        · rw [start_task_ok hfind hst hc]; rfl
        · rw [start_task_create_failed hfind hst (by simpa using hc)]; rfl
      · rw [start_task_not_pending senv hfind hst]; rfl
  · cases hfind : findTask s tid with
    | none => rw [stop_task_none force stenv hfind]; rfl
    | some task =>
      by_cases hok : task.status = Status.running ∨ task.status = Status.pending
      · rw [stop_task_ok force stenv hfind hok]
        rw [mentionsTempOrRename_append, mentionsTempOrRename_append,
          mentionsTempOrRename_stopSessionEffs, mentionsTempOrRename_notifyEffs]
        rfl
      · push_neg at hok
        rw [stop_task_terminal force stenv hfind hok.1 hok.2]; rfl
  · cases hfind : findTask s tid with
    | none => rw [get_task_status_none qenv hfind]; rfl
    | some task =>
      by_cases hst : task.status = Status.running
      · by_cases ha : qenv.session_alive = true
        · rw [get_task_status_alive hfind hst ha]; rfl
        · rw [get_task_status_reconcile hfind hst (by simpa using ha)]
          simp [mentionsTempOrRename, saveTasksEffs, notifyEffs]
      · rw [get_task_status_not_running qenv hfind hst]; rfl
  · unfold cleanup_old_tasks
    simp only [mentionsTempOrRename_append, Bool.or_eq_false_iff]
    constructor
    · unfold mentionsTempOrRename
      rw [List.any_eq_false]
      intro e he
      simp only [List.mem_map] at he
      obtain ⟨i, _, hi⟩ := he
      subst hi
      simp
    · split <;> rfl
  · intro t hfind hst
    by_cases hc : senv.session_created = true
    · rw [start_task_ok hfind hst hc]
      simp [saveTasksEffs]
    · rw [start_task_create_failed hfind hst (by simpa using hc)]
      simp [saveTasksEffs]
  · intro hstop
    cases hfind : findTask s tid with
    | none => rw [stop_task_none force stenv hfind] at hstop; simp at hstop
    | some task =>
      by_cases hok : task.status = Status.running ∨ task.status = Status.pending
      · rw [stop_task_ok force stenv hfind hok]
        simp [saveTasksEffs]
      · push_neg at hok
        rw [stop_task_terminal force stenv hfind hok.1 hok.2] at hstop
        simp at hstop
  · intro hne
    have hEmpty :
        ((s.tasks.filter (removeCond now age)).map (fun t => t.id)).isEmpty =
          false := by
      cases hq : s.tasks.filter (removeCond now age) with
      | nil => exact absurd hq hne
      | cons a l => rfl
    unfold cleanup_old_tasks
    simp only [List.mem_append, hEmpty, Bool.false_eq_true, if_false]
    right
    simp [saveTasksEffs]

/-- The record stored in `sCreated`: the fresh pending task. -/
def pendingRecord : Task :=
  { id := 1
    name := "build"
    command := "sleep 1"
    tmux_session := sessionName 1
    created_time := 0 }

/-- The record stored in `sFailed`: the task after its session creation
failed. -/
def failedRecord : Task :=
  { pendingRecord with
     status := Status.failed
     error_message := some "boom" }

/-- The record stored in `sRunning`: the task after a successful start. -/
def runningRecord : Task :=
  { pendingRecord with
     status := Status.running
     start_time := some 5
     pid := some 42 }

/-- C2 counterexample.  The state `sFailed` is reachable (create, then a
`start_task` whose `tmux new-session` failed) and its only task has the
terminal status failed with no `end_time`: the failure branch of `start_task`
sets the status and the error message but never `end_time`, contradicting the
claimed "end_time present iff status ∈ {completed, failed, killed}". -/
theorem C2_counterexample :
    Reach sFailed [] ∧
    sFailed.tasks.map (fun t => (t.status, t.end_time)) =
      [(Status.failed, none)] :=
  ⟨Reach.step
      (Reach.step Reach.init (Step.create initState [] "build" "sleep 1" 0 0 0))
      (Step.start sCreated [] 1 envStartFail),
   rfl⟩

/-- C2 amended.  In every reachable state, the `end_time` of a task is present iff
its status is completed or killed: `stop_task` and the reconcile path of
`get_task_status` are the only writers of `end_time`, and the failed status
(reached only through the failure branches of `start_task`) never carries
one. -/
theorem C2_end_time_iff :
    ∀ (s : TMState) (ev : List Nat), Reach s ev →
    ∀ t ∈ s.tasks,
      (t.end_time.isSome ↔
        (t.status = Status.completed ∨ t.status = Status.killed)) := by
  intro s ev h
  exact (reach_inv h).2.2.1

/-- C2 witness: the amended invariant applied to the reachable state
`sFailed` and its failed record. -/
theorem C2_witness :
    failedRecord.end_time.isSome ↔
      (failedRecord.status = Status.completed ∨
        failedRecord.status = Status.killed) :=
  C2_end_time_iff sFailed []
    (Reach.step
      (Reach.step Reach.init (Step.create initState [] "build" "sleep 1" 0 0 0))
      (Step.start sCreated [] 1 envStartFail))
    failedRecord (by decide)

/-- C9 counterexample.  The state `sFailed` is reachable and its only task has
left pending (its status is failed) yet has no `start_time`: the failure
branch of `start_task` flips the status to failed before the line that would
set `start_time`, contradicting "start_time is present iff status has ever
left pending". -/
theorem C9_counterexample :
    Reach sFailed [] ∧
    sFailed.tasks.map (fun t => (t.status, t.start_time)) =
      [(Status.failed, none)] :=
  ⟨Reach.step
      (Reach.step Reach.init (Step.create initState [] "build" "sleep 1" 0 0 0))
      (Step.start sCreated [] 1 envStartFail),
   rfl⟩

/-- C9 amended.  In every reachable state, the `start_time` of a task is present
iff the task has at some point been running, i.e. iff some `start_task` call
on it succeeded (the ghost list `ev` of `Reach` records exactly those ids);
merely leaving pending — to failed via a failed start, or to completed/killed
via `stop_task` on a pending task — does not set `start_time`. -/
theorem C9_start_time_iff :
    ∀ (s : TMState) (ev : List Nat), Reach s ev →
    ∀ t ∈ s.tasks, (t.start_time.isSome ↔ t.id ∈ ev) := by
  intro s ev h
  exact (reach_inv h).2.2.2

/-- C9 witness: the amended invariant applied to the reachable state
`sRunning`, whose only task started successfully. -/
theorem C9_witness :
    runningRecord.start_time.isSome ↔ runningRecord.id ∈ [1] :=
  C9_start_time_iff sRunning [1]
    (Reach.step
      (Reach.step Reach.init (Step.create initState [] "build" "sleep 1" 0 0 0))
      (Step.start sCreated [] 1 envStartOk))
    runningRecord (by decide)

theorem notifyCount_logUnlinks (l : List Nat) :
    notifyCount (l.map (fun i => Eff.logUnlink i)) = 0 := by
  unfold notifyCount
  simp [List.filter_map, Function.comp]

/-- C3 counterexample.  Starting the fresh pending task of `sCreated` with a
failing session creation is a terminal transition (pending to failed), yet the
effect trace of that `start_task` call contains no notifier invocation: the
failure branch saves and returns without calling
`_send_task_completion_email`. -/
theorem C3_counterexample :
    (findTask sCreated 1).map Task.status = some Status.pending ∧
    (findTask sFailed 1).map Task.status = some Status.failed ∧
    notifyCount (start_task sCreated 1 envStartFail).2.2 = 0 :=
  ⟨rfl, rfl, rfl⟩

/-- C3 amended.  The notifier fires exactly once per transition into completed
or killed and never otherwise: `create_task`, `start_task` (both branches,
including the pending-to-failed transition) and `cleanup_old_tasks` never
invoke it; `stop_task` invokes it exactly once exactly when it reports
success (the killed/completed transition); `get_task_status` invokes it
exactly once when its reconcile transition fires (running task, dead session)
and never otherwise. -/
theorem C3_notify_exactly_on_completed_or_killed :
    ∀ (s : TMState) (tid : Nat) (name cmd : String) (priority : Int)
      (max_retries : Nat) (now age : Int) (senv : StartEnv) (force : Bool)
      (stenv : StopEnv) (qenv : QueryEnv) (logExists : Nat → Bool),
    notifyCount (create_task s name cmd priority max_retries now).2.2 = 0 ∧
    notifyCount (start_task s tid senv).2.2 = 0 ∧
    notifyCount (cleanup_old_tasks s age now logExists).2 = 0 ∧
    notifyCount (stop_task s tid force stenv).2.2 =
      (if (stop_task s tid force stenv).1 then 1 else 0) ∧
    (∀ t, findTask s tid = some t → t.status = Status.running →
      qenv.session_alive = false →
      notifyCount (get_task_status s tid qenv).2.2 = 1) ∧
    (∀ t, findTask s tid = some t →
      (t.status ≠ Status.running ∨ qenv.session_alive = true) →
      notifyCount (get_task_status s tid qenv).2.2 = 0) ∧
    (findTask s tid = none →
      notifyCount (get_task_status s tid qenv).2.2 = 0) := by
  intro s tid name cmd priority max_retries now age senv force stenv qenv
    logExists
  refine ⟨rfl, ?_, ?_, ?_, ?_, ?_, ?_⟩
  · cases hfind : findTask s tid with
    | none => rw [start_task_none senv hfind]; rfl
    | some task =>
      by_cases hst : task.status = Status.pending
      · by_cases hc : senv.session_created = true
        · rw [start_task_ok hfind hst hc]; rfl
        · rw [start_task_create_failed hfind hst (by simpa using hc)]; rfl
      · rw [start_task_not_pending senv hfind hst]; rfl
  · unfold cleanup_old_tasks
    rw [notifyCount_append, notifyCount_logUnlinks]
    split <;> rfl
  · cases hfind : findTask s tid with
    | none => rw [stop_task_none force stenv hfind]; rfl
    | some task =>
      by_cases hok : task.status = Status.running ∨ task.status = Status.pending
      · rw [stop_task_ok force stenv hfind hok]
        rw [notifyCount_append, notifyCount_append,
          notifyCount_stopSessionEffs, notifyCount_notifyEffs]
        have hsave : notifyCount saveTasksEffs = 0 := rfl
        cases force <;> simp [stoppedTask, isTerminal, hsave]
      · push_neg at hok
        rw [stop_task_terminal force stenv hfind hok.1 hok.2]; rfl
  · intro t hfind hst ha
    rw [get_task_status_reconcile hfind hst ha]
    show notifyCount (Eff.tmuxHasSession t.tmux_session ::
      (saveTasksEffs ++ notifyEffs (reconciledTask t qenv.now) qenv.now)) = 1
    unfold notifyCount at *
    rw [List.filter_cons]
    simp only [List.filter_append]
    rw [show List.filter _ (notifyEffs (reconciledTask t qenv.now) qenv.now) =
      List.filter (fun e => match e with
        | Eff.notify _ _ _ _ _ _ => true
        | _ => false) (notifyEffs (reconciledTask t qenv.now) qenv.now) from rfl]
    simp [notifyEffs, reconciledTask, isTerminal, saveTasksEffs]
  · intro t hfind hcase
    rcases hcase with hst | ha
    · rw [get_task_status_not_running qenv hfind hst]; rfl
    · by_cases hst : t.status = Status.running
      · rw [get_task_status_alive hfind hst ha]; rfl
      · rw [get_task_status_not_running qenv hfind hst]; rfl
  · intro hfind
    rw [get_task_status_none qenv hfind]; rfl

/-- Stop environment in which the session is gone after the grace period. -/
def envStop : StopEnv :=
  { alive_after_interrupt := false
    now := 9 }

/-- Query environment in which the session no longer exists. -/
def envQuery : QueryEnv :=
  { session_alive := false
    now := 9 }

/-- C3 witness: the reconcile transition of `get_task_status` on the running
task of `sRunning` notifies exactly once. -/
theorem C3_witness :
    notifyCount (get_task_status sRunning 1 envQuery).2.2 = 1 :=
  (C3_notify_exactly_on_completed_or_killed sRunning 1 "n" "c" 0 0 0 0
      envStartOk false envStop envQuery (fun _ => true)).2.2.2.2.1
    runningRecord (by decide) rfl rfl

theorem find?_map_update {l : List Task} {tid : Nat} {t u : Task}
    (hfind : l.find? (fun w => w.id == tid) = some t) (hu : u.id = tid) :
    (l.map (fun w => if w.id == u.id then u else w)).find?
      (fun w => w.id == tid) = some u := by
  induction l with
  | nil => simp at hfind
  | cons a l ih =>
    by_cases ha : a.id = tid
    · rw [List.map_cons, if_pos (by simp [ha, hu])]
      have hu2 : (u.id == tid) = true := by simp [hu]
      simp [List.find?, hu2]
    · rw [List.map_cons, if_neg (by simp [hu, ha])]
      have hfa : (a.id == tid) = false := by simp [ha]
      simp only [List.find?, hfa] at hfind
      simp only [List.find?, hfa]
      exact ih hfind

theorem findTask_updateTask {s : TMState} {tid : Nat} {t u : Task}
    (hfind : findTask s tid = some t) (hu : u.id = tid) :
    findTask (updateTask s u) tid = some u := by
  unfold findTask updateTask at *
  exact find?_map_update hfind hu

/-- C5 (confirmed).  On any task whose status is running or pending,
`stop_task` with `force` reports success and leaves the task killed with
`end_time` set; without `force` it sends the interrupt, sleeps the fixed
one-second grace period, re-probes `has-session`, escalates to a kill exactly
when the session is still alive, and leaves the task completed with `end_time`
set regardless of whether the grace period or the escalation terminated it. -/
theorem C5_stop_task_semantics :
    ∀ (s : TMState) (tid : Nat) (env : StopEnv) (t : Task),
    findTask s tid = some t →
    (t.status = Status.running ∨ t.status = Status.pending) →
    ((stop_task s tid true env).1 = true ∧
     findTask (stop_task s tid true env).2.1 tid =
       some { t with status := Status.killed, end_time := some env.now } ∧
     (stop_task s tid false env).1 = true ∧
     findTask (stop_task s tid false env).2.1 tid =
       some { t with status := Status.completed, end_time := some env.now } ∧
     List.take 3 (stop_task s tid false env).2.2 =
       [Eff.tmuxSendInterrupt t.tmux_session, Eff.sleepSec 1,
        Eff.tmuxHasSession t.tmux_session] ∧
     (Eff.tmuxKillSession t.tmux_session ∈ (stop_task s tid false env).2.2 ↔
       env.alive_after_interrupt = true)) := by
  intro s tid env t hfind hok
  have hid : t.id = tid := findTask_id hfind
  have h1 := stop_task_ok true env hfind hok
  have h2 := stop_task_ok false env hfind hok
  refine ⟨by rw [h1], ?_, by rw [h2], ?_, ?_, ?_⟩
  · rw [h1]
    show findTask (updateTask s (stoppedTask t true env.now)) tid = _
    rw [findTask_updateTask hfind (by simp [stoppedTask, hid])]
    rfl
  · rw [h2]
    show findTask (updateTask s (stoppedTask t false env.now)) tid = _
    rw [findTask_updateTask hfind (by simp [stoppedTask, hid])]
    rfl
  · rw [h2]
    cases env.alive_after_interrupt <;> simp [stopSessionEffs]
  · rw [h2]
    cases halive : env.alive_after_interrupt <;>
      simp [stopSessionEffs, halive, saveTasksEffs, notifyEffs, stoppedTask,
        isTerminal]

/-- C5 witness: stopping the running task of `sRunning`. -/
theorem C5_witness :
    (stop_task sRunning 1 true envStop).1 = true ∧
    findTask (stop_task sRunning 1 true envStop).2.1 1 =
      some { runningRecord with
              status := Status.killed
              end_time := some envStop.now } :=
  ⟨(C5_stop_task_semantics sRunning 1 envStop runningRecord (by decide)
      (Or.inl rfl)).1,
   (C5_stop_task_semantics sRunning 1 envStop runningRecord (by decide)
      (Or.inl rfl)).2.1⟩

/-- C6 (confirmed).  Terminal tasks are absorbing under the queried
operations: on a task whose status is terminal, `start_task` and `stop_task`
(either force flag) return failure leaving the state untouched and issuing no
effect, `get_task_status` returns the record unchanged with no state change
and no effect, and `list_tasks` only ever returns records of the store
unmodified. -/
theorem C6_terminal_absorbing :
    ∀ (s : TMState) (tid : Nat) (t : Task) (senv : StartEnv) (force : Bool)
      (stenv : StopEnv) (qenv : QueryEnv) (status_filter : Option Status),
    findTask s tid = some t →
    isTerminal t.status = true →
    (start_task s tid senv = (false, s, []) ∧
     stop_task s tid force stenv = (false, s, []) ∧
     get_task_status s tid qenv = (some t, s, []) ∧
     (∀ u ∈ list_tasks s status_filter, u ∈ s.tasks)) := by
  intro s tid t senv force stenv qenv status_filter hfind hterm
  have hnp : t.status ≠ Status.pending := by
    cases ht : t.status <;> simp_all [isTerminal]
  have hnr : t.status ≠ Status.running := by
    cases ht : t.status <;> simp_all [isTerminal]
  refine ⟨start_task_not_pending senv hfind hnp,
    stop_task_terminal force stenv hfind hnr hnp,
    get_task_status_not_running qenv hfind hnr, ?_⟩
  intro u hu
  have hperm :=
    List.perm_insertionSort taskLE (s.tasks.filter (matchesFilter status_filter))
  have hu2 : u ∈ s.tasks.filter (matchesFilter status_filter) :=
    hperm.mem_iff.mp hu
  exact (List.mem_filter.mp hu2).1

/-- State holding one killed task: `sRunning` after a forced stop. -/
def sKilled : TMState := (stop_task sRunning 1 true envStop).2.1

/-- The record stored in `sKilled`. -/
def killedRecord : Task :=
  { runningRecord with
     status := Status.killed
     end_time := some 9 }

/-- C6 witness: starting or stopping the killed task of `sKilled` is rejected
without side effect. -/
theorem C6_witness :
    start_task sKilled 1 envStartOk = (false, sKilled, []) ∧
    stop_task sKilled 1 true envStop = (false, sKilled, []) :=
  ⟨(C6_terminal_absorbing sKilled 1 killedRecord envStartOk true envStop
      envQuery none (by decide) rfl).1,
   (C6_terminal_absorbing sKilled 1 killedRecord envStartOk true envStop
      envQuery none (by decide) rfl).2.1⟩

/-- C10 (confirmed).  `stop_task` on a still-pending task (no session was ever
created for it) reports success and transitions it to killed (forced) or
completed (non-forced) with `end_time = now` and `start_time` untouched —
still absent when it was absent — while the tmux commands it issues target the
(nonexistent) session name of the task. -/
theorem C10_stop_pending_succeeds :
    ∀ (s : TMState) (tid : Nat) (t : Task) (force : Bool) (env : StopEnv),
    findTask s tid = some t →
    t.status = Status.pending →
    ((stop_task s tid force env).1 = true ∧
     findTask (stop_task s tid force env).2.1 tid =
       some (stoppedTask t force env.now) ∧
     (stoppedTask t force env.now).status =
       (if force then Status.killed else Status.completed) ∧
     (stoppedTask t force env.now).end_time = some env.now ∧
     (stoppedTask t force env.now).start_time = t.start_time ∧
     (t.start_time = none → (stoppedTask t force env.now).start_time = none) ∧
     (force = true →
       Eff.tmuxKillSession t.tmux_session ∈ (stop_task s tid force env).2.2) ∧
     (force = false →
       Eff.tmuxSendInterrupt t.tmux_session ∈
         (stop_task s tid force env).2.2)) := by
  intro s tid t force env hfind hpend
  have hid : t.id = tid := findTask_id hfind
  have h := stop_task_ok force env hfind (Or.inr hpend)
  refine ⟨by rw [h], ?_, rfl, rfl, rfl, fun hsn => hsn, ?_, ?_⟩
  · rw [h]
    show findTask (updateTask s (stoppedTask t force env.now)) tid = _
    exact findTask_updateTask hfind (by simp [stoppedTask, hid])
  · intro hforce
    subst hforce
    rw [h]
    simp [stopSessionEffs]
  · intro hforce
    subst hforce
    rw [h]
    simp [stopSessionEffs]

/-- C10 witness: a forced stop of the never-started pending task of
`sCreated`. -/
theorem C10_witness :
    (stop_task sCreated 1 true envStop).1 = true ∧
    findTask (stop_task sCreated 1 true envStop).2.1 1 =
      some (stoppedTask pendingRecord true envStop.now) :=
  ⟨(C10_stop_pending_succeeds sCreated 1 pendingRecord true envStop
      (by decide) rfl).1,
   (C10_stop_pending_succeeds sCreated 1 pendingRecord true envStop
      (by decide) rfl).2.1⟩

/-- C1 witness: the trace of a successful forced stop on `sRunning` persists
the store by a direct in-place write and uses no temporary file or rename. -/
theorem C1_witness :
    mentionsTempOrRename (stop_task sRunning 1 true envStop).2.2 = false ∧
    Eff.fsWrite tasksFile ∈ (stop_task sRunning 1 true envStop).2.2 :=
  ⟨(C1_saves_write_in_place sRunning "n" "c" 0 0 0 0 1 envStartOk true envStop
      envQuery (fun _ => true)).2.2.1,
   (C1_saves_write_in_place sRunning "n" "c" 0 0 0 0 1 envStartOk true envStop
      envQuery (fun _ => true)).2.2.2.2.2.2.2.1 rfl⟩

theorem get_tmux_output_fail {s : TMState} {tid : Nat} {t : Task}
    {lines : Int} {env : OutputEnv} (hfind : findTask s tid = some t)
    (hc : env.capture_ok = false) :
    get_tmux_output s tid lines env =
      ("Failed to get output: " ++ env.capture_stderr,
       [Eff.tmuxCapturePane t.tmux_session]) := by
  simp [get_tmux_output, hfind, hc]

theorem get_tmux_output_snapshot {s : TMState} {tid : Nat} {t : Task}
    {lines : Int} {env : OutputEnv} (hfind : findTask s tid = some t)
    (hc : env.capture_ok = true) :
    get_tmux_output s tid lines env =
      (lastLines env.capture_stdout lines,
       [Eff.tmuxCapturePane t.tmux_session]) := by
  simp [get_tmux_output, hfind, hc]

/-- Output environment of a vanished session: `tmux capture-pane` fails. -/
def envCaptureFail : OutputEnv :=
  { capture_ok := false
    capture_stdout := ""
    capture_stderr := "no session" }

/-- C8 counterexample.  Querying the output of the task of `sRunning` when its
session no longer exists (capture-pane fails) returns the error message built
from the tmux stderr, and the only external effect of the call is the capture-pane
attempt: the durable log file is never read, so no fallback to the log tail
takes place. -/
theorem C8_counterexample :
    (get_tmux_output sRunning 1 50 envCaptureFail).1 =
      "Failed to get output: no session" ∧
    (get_tmux_output sRunning 1 50 envCaptureFail).2 =
      [Eff.tmuxCapturePane (sessionName 1)] :=
  ⟨rfl, rfl⟩

/-- C8 amended.  `get_tmux_output` on a known task returns the last `lines`
lines of a fresh capture-pane snapshot when the capture succeeds; when the
session no longer exists (capture-pane fails) it returns the error string
"Failed to get output: " followed by the tmux stderr — it performs no fallback
to the durable log file, whose content is never read by this operation. -/
theorem C8_output_snapshot_or_error :
    ∀ (s : TMState) (tid : Nat) (lines : Int) (env : OutputEnv) (t : Task),
    findTask s tid = some t →
    ((env.capture_ok = false →
       (get_tmux_output s tid lines env).1 =
         "Failed to get output: " ++ env.capture_stderr) ∧
     (env.capture_ok = true →
       (get_tmux_output s tid lines env).1 =
         lastLines env.capture_stdout lines) ∧
     (get_tmux_output s tid lines env).2 =
       [Eff.tmuxCapturePane t.tmux_session] ∧
     (∀ i, Eff.logRead i ∉ (get_tmux_output s tid lines env).2)) := by
  intro s tid lines env t hfind
  by_cases hc : env.capture_ok = true
  · rw [get_tmux_output_snapshot hfind hc]
    exact ⟨fun h => absurd h (by simp [hc]), fun _ => rfl, rfl, by simp⟩
  · have hc2 : env.capture_ok = false := by simpa using hc
    rw [get_tmux_output_fail hfind hc2]
    exact ⟨fun _ => rfl, fun h => absurd h (by simp [hc2]), rfl, by simp⟩

/-- C8 witness: the error-path conclusion at the concrete dead-session
query. -/
theorem C8_witness :
    (get_tmux_output sRunning 1 50 envCaptureFail).1 =
      "Failed to get output: " ++ envCaptureFail.capture_stderr :=
  (C8_output_snapshot_or_error sRunning 1 50 envCaptureFail runningRecord
    (by decide)).1 rfl

theorem foldl_eraseTask_eq_filter (l : List Nat) (tasks : List Task) :
    l.foldl eraseTask tasks = tasks.filter (fun t => decide (t.id ∉ l)) := by
  induction l generalizing tasks with
  | nil => simp
  | cons i l ih =>
    rw [List.foldl_cons, ih]
    unfold eraseTask
    rw [List.filter_filter]
    apply List.filter_congr
    intro t _
    simp only [List.mem_cons, not_or]
    cases hil : decide (t.id ∉ l) <;> cases hti : (t.id != i) <;>
      simp_all [bne_iff_ne]

/-- The condition of `removeCond`, phrased the way the spec states it. -/
theorem removeCond_iff (now age : Int) (t : Task) :
    removeCond now age t = true ↔
      (isTerminal t.status = true ∧
        ∃ e, t.end_time = some e ∧ now - e > age * 3600) := by
  unfold removeCond
  cases he : t.end_time <;> simp [he]

/-- C7 counterexample.  `sFailed` is reachable and holds one task of the
terminal status failed, yet `cleanup_old_tasks` with `max_age_hours = 0` at a
much later time removes nothing and unlinks no log: the candidate test
requires `end_time` to be set, and failed tasks never carry one, so
"cleanup(0) deletes all terminal-state tasks" is false. -/
theorem C7_counterexample :
    Reach sFailed [] ∧
    (findTask sFailed 1).map Task.status = some Status.failed ∧
    isTerminal Status.failed = true ∧
    (cleanup_old_tasks sFailed 0 100000 (fun _ => true)).1 = sFailed ∧
    (cleanup_old_tasks sFailed 0 100000 (fun _ => true)).2 = [] :=
  ⟨Reach.step
      (Reach.step Reach.init (Step.create initState [] "build" "sleep 1" 0 0 0))
      (Step.start sCreated [] 1 envStartFail),
   rfl, rfl, by decide, by decide⟩

/-- C7 amended.  Over a store with unique ids, `cleanup_old_tasks` keeps a
task iff it is not a candidate, where a candidate has terminal status AND a
present `end_time` with `now - end_time` strictly above `max_age_hours` hours;
hence with `max_age_hours = 0` exactly the completed/killed tasks whose
`end_time` is strictly in the past are deleted, failed tasks (which never
carry `end_time`) are never deleted, and running/pending tasks always survive.
The logs unlinked are exactly the existing logs of removed tasks. -/
theorem C7_cleanup_exact :
    ∀ (s : TMState) (age now : Int) (logExists : Nat → Bool),
    (s.tasks.map Task.id).Nodup →
    ((∀ t ∈ s.tasks,
       (t ∈ (cleanup_old_tasks s age now logExists).1.tasks ↔
         ¬(isTerminal t.status = true ∧
           ∃ e, t.end_time = some e ∧ now - e > age * 3600))) ∧
     (∀ t ∈ (cleanup_old_tasks s age now logExists).1.tasks, t ∈ s.tasks) ∧
     (∀ t ∈ s.tasks,
       (t.status = Status.running ∨ t.status = Status.pending) →
       t ∈ (cleanup_old_tasks s age now logExists).1.tasks) ∧
     (∀ t ∈ s.tasks, removeCond now age t = true → logExists t.id = true →
       Eff.logUnlink t.id ∈ (cleanup_old_tasks s age now logExists).2) ∧
     (∀ i, Eff.logUnlink i ∈ (cleanup_old_tasks s age now logExists).2 →
       ∃ t, t ∈ s.tasks ∧ t.id = i ∧ removeCond now age t = true)) := by
  intro s age now logExists hnd
  have htasks : (cleanup_old_tasks s age now logExists).1.tasks =
      s.tasks.filter (fun t =>
        decide (t.id ∉ (s.tasks.filter (removeCond now age)).map
          (fun u => u.id))) := by
    show (((s.tasks.filter (removeCond now age)).map (fun u => u.id)).foldl
        eraseTask s.tasks) = _
    exact foldl_eraseTask_eq_filter _ _
  have hmemIds : ∀ t ∈ s.tasks,
      (t.id ∈ (s.tasks.filter (removeCond now age)).map (fun u => u.id) ↔
        removeCond now age t = true) := by
    intro t ht
    constructor
    · intro hin
      simp only [List.mem_map] at hin
      obtain ⟨u, hu, huid⟩ := hin
      have hu2 : u ∈ s.tasks := (List.mem_filter.mp hu).1
      have : u = t := List.inj_on_of_nodup_map hnd hu2 ht huid
      subst this
      exact (List.mem_filter.mp hu).2
    · intro hcond
      exact List.mem_map_of_mem _ (List.mem_filter.mpr ⟨ht, hcond⟩)
  have hmain : ∀ t ∈ s.tasks,
      (t ∈ (cleanup_old_tasks s age now logExists).1.tasks ↔
        removeCond now age t = false) := by
    intro t ht
    rw [htasks, List.mem_filter]
    constructor
    · intro ⟨_, hdec⟩
      have : t.id ∉ _ := of_decide_eq_true hdec
      rw [hmemIds t ht] at this
      simpa using this
    · intro hcond
      refine ⟨ht, decide_eq_true ?_⟩
      rw [hmemIds t ht, hcond]
      simp
  refine ⟨?_, ?_, ?_, ?_, ?_⟩
  · intro t ht
    rw [hmain t ht, ← removeCond_iff now age t]
    cases hrc : removeCond now age t <;> simp
  · intro t ht
    rw [htasks] at ht
    exact (List.mem_filter.mp ht).1
  · intro t ht hrp
    rw [hmain t ht]
    unfold removeCond
    rcases hrp with hrp | hrp <;> rw [hrp] <;> rfl
  · intro t ht hcond hlog
    show Eff.logUnlink t.id ∈
      ((((s.tasks.filter (removeCond now age)).map (fun u => u.id)).filter
        logExists).map (fun i => Eff.logUnlink i)) ++ _
    rw [List.mem_append]
    left
    apply List.mem_map_of_mem
    apply List.mem_filter.mpr
    refine ⟨(hmemIds t ht).mpr hcond, hlog⟩
  · intro i hi
    have hi2 : Eff.logUnlink i ∈
        ((((s.tasks.filter (removeCond now age)).map (fun u => u.id)).filter
          logExists).map (fun j => Eff.logUnlink j)) ++
        (if (((s.tasks.filter (removeCond now age)).map
            (fun u => u.id)).isEmpty) = true then ([] : List Eff)
          else saveTasksEffs) := hi
    rw [List.mem_append] at hi2
    rcases hi2 with hi2 | hi2
    · simp only [List.mem_map] at hi2
      obtain ⟨j, hj, hji⟩ := hi2
      have hj2 := (List.mem_filter.mp hj).1
      simp only [List.mem_map] at hj2
      obtain ⟨u, hu, huj⟩ := hj2
      refine ⟨u, (List.mem_filter.mp hu).1, ?_, (List.mem_filter.mp hu).2⟩
      rw [huj]
      exact (Eff.logUnlink.injEq j i).mp hji
    · split at hi2 <;> simp [saveTasksEffs] at hi2

/-- C7 witness: the existing log of the killed task of `sKilled` is unlinked
by a cleanup with threshold 0 run much later. -/
theorem C7_witness :
    Eff.logUnlink killedRecord.id ∈
      (cleanup_old_tasks sKilled 0 100000 (fun _ => true)).2 :=
  (C7_cleanup_exact sKilled 0 100000 (fun _ => true) (by decide)).2.2.2.1
    killedRecord (by decide) (by decide) rfl

end TaskMgr
